import Mathlib

/-!
Verification of the Game of Life core (`Universe` in `src/main.rs`).

The Rust code is shallowly embedded: `u32` values become `Nat`, the
`Vec<Cell>` buffer becomes `List Cell`, and in-place mutation becomes
functions returning a new `Universe`.  Buffer indexing `self.cells[idx]`
(which panics when out of range in Rust) is modelled by `getD` with a
`Cell.Dead` default; every theorem below only reads indices that are in
range, so the default is never reached under the stated hypotheses.
-/

namespace GameOfLife

/-- `Cell` from the source: a two-valued state, `Dead = 0` or `Alive = 1`. -/
inductive Cell where
  | Dead
  | Alive
deriving DecidableEq, Repr

/-- The numeric value of a cell (`cell as u8` in the source). -/
def cellVal : Cell → Nat
  | Cell.Dead => 0
  | Cell.Alive => 1

/-- `Cell::toggle` from the source. -/
def Cell.toggle : Cell → Cell
  | Cell.Dead => Cell.Alive
  | Cell.Alive => Cell.Dead

/-- `Universe` from the source: width, height, and a row-major cell buffer. -/
structure Universe where
  width : Nat
  height : Nat
  cells : List Cell
deriving DecidableEq, Repr

/-- Read the buffer at a linear index (`self.cells[idx]`; Rust panics out of
range, modelled by the `Dead` default, unreachable in the proofs below). -/
def getCell (cs : List Cell) (i : Nat) : Cell := cs.getD i Cell.Dead

/-- `Universe::get_index`: linear index `row * width + column`. -/
def Universe.get_index (u : Universe) (row column : Nat) : Nat :=
  row * u.width + column

/-- The eight neighbor positions visited by the loop in
`Universe::live_neighbor_count`: row deltas `[height-1, 0, 1]`, column
deltas `[width-1, 0, 1]`, the `(0,0)` pair skipped, each wrapped by
`(row + delta_row) % height` and `(column + delta_col) % width`. -/
def neighborPositions (u : Universe) (row column : Nat) : List (Nat × Nat) :=
  ((([u.height - 1, 0, 1].map fun dr =>
      [u.width - 1, 0, 1].map fun dc => (dr, dc)).flatten).filter
    fun p => !(p.1 == 0 && p.2 == 0)).map
    fun p => ((row + p.1) % u.height, (column + p.2) % u.width)

/-- `Universe::live_neighbor_count`: sum of the cell values (0/1) at the
eight wrapped neighbor positions. -/
def Universe.live_neighbor_count (u : Universe) (row column : Nat) : Nat :=
  ((neighborPositions u row column).map fun p =>
    cellVal (getCell u.cells (u.get_index p.1 p.2))).sum

/-- The `match (cell, live_neighbors)` in `Universe::tick`, arm by arm. -/
def nextCellState (cell : Cell) (live_neighbors : Nat) : Cell :=
  if cell = Cell.Alive ∧ live_neighbors < 2 then Cell.Dead
  else if cell = Cell.Alive ∧ (live_neighbors = 2 ∨ live_neighbors = 3) then Cell.Alive
  else if cell = Cell.Alive ∧ live_neighbors > 3 then Cell.Dead
  else if cell = Cell.Dead ∧ live_neighbors = 3 then Cell.Alive
  else cell

/-- `Universe::tick`: clone the buffer into `next`, then for each row and
column write the transition of the OLD buffer's cell into `next`, and
finally replace the buffer with `next`. -/
def Universe.tick (u : Universe) : Universe :=
  { u with
    cells :=
      (List.range u.height).foldl
        (fun next row =>
          (List.range u.width).foldl
            (fun next2 col =>
              next2.set (u.get_index row col)
                (nextCellState (getCell u.cells (u.get_index row col))
                  (u.live_neighbor_count row col)))
            next)
        u.cells }

/-- `Universe::new`: a `width*height` buffer where index `i` is `Alive`
iff `i % div_a == 0 || i % div_b == 0`. -/
def Universe.new (initial_width initial_height div_a div_b : Nat) : Universe :=
  { width := initial_width
    height := initial_height
    cells := (List.range (initial_width * initial_height)).map fun i =>
      if i % div_a = 0 ∨ i % div_b = 0 then Cell.Alive else Cell.Dead }

/-- `Universe::get_cells`: a read-only view of the buffer. -/
def Universe.get_cells (u : Universe) : List Cell := u.cells

/-- `Universe::set_cells`: force each listed `(row, column)` to `Alive`. -/
def Universe.set_cells (u : Universe) (coords : List (Nat × Nat)) : Universe :=
  { u with
    cells := coords.foldl
      (fun cs p => cs.set (u.get_index p.1 p.2) Cell.Alive) u.cells }

/-- `Universe::reset`: every cell becomes `Dead`, dimensions kept. -/
def Universe.reset (u : Universe) : Universe :=
  { u with cells := (List.range (u.width * u.height)).map fun _ => Cell.Dead }

/-- `Universe::set_width`: new width, buffer reallocated all-`Dead`. -/
def Universe.set_width (u : Universe) (width : Nat) : Universe :=
  { u with
    width := width
    cells := (List.range (width * u.height)).map fun _ => Cell.Dead }

/-- `Universe::set_height`: new height, buffer reallocated all-`Dead`. -/
def Universe.set_height (u : Universe) (height : Nat) : Universe :=
  { u with
    height := height
    cells := (List.range (u.width * height)).map fun _ => Cell.Dead }

/-- `Universe::toggle_cell`: flip the cell at `(row, column)`. -/
def Universe.toggle_cell (u : Universe) (row column : Nat) : Universe :=
  { u with
    cells := u.cells.set (u.get_index row column)
      (getCell u.cells (u.get_index row column)).toggle }

/-- `slice::chunks` as used by the `Display` impl: successive chunks of
size `n` (Rust panics on `n = 0`; modelled as no chunks). -/
def chunksOf (n : Nat) (l : List Cell) : List (List Cell) :=
  if h : n = 0 ∨ l = [] then []
  else l.take n :: chunksOf n (l.drop n)
termination_by l.length
decreasing_by
  simp only [not_or] at h
  have h1 : n ≠ 0 := h.1
  have h2 : l ≠ [] := h.2
  have : 0 < l.length := List.length_pos.mpr h2
  simp [List.length_drop]
  omega

/-- The per-cell symbol from the `Display` impl: three spaces for `Dead`,
space, filled square, space for `Alive`. -/
def cellSymbol (cell : Cell) : String :=
  if cell = Cell.Dead then "   " else " ◼ "

/-- The `Display` impl (and hence `Universe::render`): for each width-sized
chunk of the buffer, the concatenated cell symbols followed by a newline. -/
def Universe.render (u : Universe) : String :=
  String.join ((chunksOf u.width u.cells).map fun line =>
    String.join (line.map cellSymbol) ++ "\n")

/-! ## Basic buffer lemmas -/

lemma getCell_set (cs : List Cell) (i j : Nat) (v : Cell) :
    getCell (cs.set i v) j = if i = j ∧ j < cs.length then v else getCell cs j := by
  simp only [getCell, List.getD_eq_getElem?_getD, List.getElem?_set]
  by_cases h : i = j
  · subst h
    by_cases h2 : i < cs.length
    · simp [h2]
    · simp [h2, List.getElem?_eq_none (Nat.le_of_not_lt h2)]
  · simp [h, fun hc : i = j ∧ j < cs.length => h hc.1]

lemma getCell_map_range (n : Nat) (f : Nat → Cell) (i : Nat) :
    getCell ((List.range n).map f) i = if i < n then f i else Cell.Dead := by
  simp only [getCell, List.getD_eq_getElem?_getD, List.getElem?_map]
  by_cases h : i < n
  · simp [List.getElem?_range h, h]
  · rw [List.getElem?_eq_none (by simpa using Nat.le_of_not_lt h)]
    simp [h]

lemma length_foldl_of_preserve (l : List β) (f : List Cell → β → List Cell)
    (hf : ∀ cs x, (f cs x).length = cs.length) (init : List Cell) :
    (l.foldl f init).length = init.length := by
  induction l generalizing init with
  | nil => rfl
  | cons x xs ih => rw [List.foldl_cons, ih, hf]

lemma length_foldl_set (l : List β) (g : β → Nat) (v : β → Cell) (init : List Cell) :
    (l.foldl (fun cs x => cs.set (g x) (v x)) init).length = init.length :=
  length_foldl_of_preserve l _ (fun cs x => List.length_set cs (g x) (v x)) init

lemma get_index_lt (u : Universe) (row col : Nat) (hrow : row < u.height)
    (hcol : col < u.width) : u.get_index row col < u.width * u.height := by
  have h1 : (row + 1) * u.width ≤ u.height * u.width :=
    Nat.mul_le_mul_right u.width (by omega)
  have h2 : (row + 1) * u.width = row * u.width + u.width := Nat.succ_mul row u.width
  have h3 : u.height * u.width = u.width * u.height := Nat.mul_comm _ _
  simp only [Universe.get_index]
  omega

lemma get_index_inj (u : Universe) (row1 col1 row2 col2 : Nat)
    (hcol1 : col1 < u.width) (hcol2 : col2 < u.width)
    (h : u.get_index row1 col1 = u.get_index row2 col2) :
    row1 = row2 ∧ col1 = col2 := by
  simp only [Universe.get_index] at h
  rcases Nat.lt_trichotomy row1 row2 with hr | hr | hr
  · exfalso
    have h1 : (row1 + 1) * u.width ≤ row2 * u.width :=
      Nat.mul_le_mul_right u.width (by omega)
    have h2 : (row1 + 1) * u.width = row1 * u.width + u.width := Nat.succ_mul _ _
    omega
  · subst hr
    omega
  · exfalso
    have h1 : (row2 + 1) * u.width ≤ row1 * u.width :=
      Nat.mul_le_mul_right u.width (by omega)
    have h2 : (row2 + 1) * u.width = row2 * u.width + u.width := Nat.succ_mul _ _
    omega

/-! ## Claim theorems: initialization, reset/resize, dimension frame -/

/-- Claim C4: `new(width, height, div_a, div_b)` builds a buffer of length
`width*height` whose cell at linear index `i` is `Alive` iff
`i % div_a == 0` or `i % div_b == 0`, and `Dead` otherwise. -/
theorem new_init (width height div_a div_b : Nat) (ha : div_a ≠ 0) (hb : div_b ≠ 0)
    (i : Nat) (hi : i < width * height) :
    (Universe.new width height div_a div_b).cells.length = width * height ∧
    (getCell (Universe.new width height div_a div_b).cells i = Cell.Alive ↔
      (i % div_a = 0 ∨ i % div_b = 0)) ∧
    (¬(i % div_a = 0 ∨ i % div_b = 0) →
      getCell (Universe.new width height div_a div_b).cells i = Cell.Dead) := by
  refine ⟨by simp [Universe.new], ?_, ?_⟩ <;>
    rw [show (Universe.new width height div_a div_b).cells =
      (List.range (width * height)).map (fun i =>
        if i % div_a = 0 ∨ i % div_b = 0 then Cell.Alive else Cell.Dead) from rfl,
      getCell_map_range, if_pos hi]
  · split <;> simp_all
  · intro hcond
    rw [if_neg hcond]

/-- Witness for C4 at the spec's own example `new(10, 10, 2, 5)`, index 6. -/
theorem new_init_witness :
    (Universe.new 10 10 2 5).cells.length = 10 * 10 ∧
    (getCell (Universe.new 10 10 2 5).cells 6 = Cell.Alive ↔
      (6 % 2 = 0 ∨ 6 % 5 = 0)) ∧
    (¬(6 % 2 = 0 ∨ 6 % 5 = 0) →
      getCell (Universe.new 10 10 2 5).cells 6 = Cell.Dead) :=
  new_init 10 10 2 5 (by decide) (by decide) 6 (by decide)

/-- Claim C6: `reset()` kills every cell and keeps both dimensions;
`set_width(w)` kills every cell, sets the width, keeps the height;
`set_height(h)` kills every cell, sets the height, keeps the width; in each
case the buffer length is the (new) `width * height`. -/
theorem reset_resize_clear (u : Universe) (w h i j k : Nat)
    (hi : i < u.width * u.height) (hj : j < w * u.height) (hk : k < u.width * h) :
    (u.reset.width = u.width ∧ u.reset.height = u.height ∧
      u.reset.cells.length = u.reset.width * u.reset.height ∧
      getCell u.reset.cells i = Cell.Dead) ∧
    ((u.set_width w).width = w ∧ (u.set_width w).height = u.height ∧
      (u.set_width w).cells.length = (u.set_width w).width * (u.set_width w).height ∧
      getCell (u.set_width w).cells j = Cell.Dead) ∧
    ((u.set_height h).height = h ∧ (u.set_height h).width = u.width ∧
      (u.set_height h).cells.length = (u.set_height h).width * (u.set_height h).height ∧
      getCell (u.set_height h).cells k = Cell.Dead) := by
  refine ⟨⟨rfl, rfl, by simp [Universe.reset], ?_⟩,
    ⟨rfl, rfl, by simp [Universe.set_width], ?_⟩,
    ⟨rfl, rfl, by simp [Universe.set_height], ?_⟩⟩
  · rw [show u.reset.cells =
      (List.range (u.width * u.height)).map (fun _ => Cell.Dead) from rfl,
      getCell_map_range, if_pos hi]
  · rw [show (u.set_width w).cells =
      (List.range (w * u.height)).map (fun _ => Cell.Dead) from rfl,
      getCell_map_range, if_pos hj]
  · rw [show (u.set_height h).cells =
      (List.range (u.width * h)).map (fun _ => Cell.Dead) from rfl,
      getCell_map_range, if_pos hk]

/-- Witness for C6 on a concrete grid. -/
theorem reset_resize_clear_witness :
    (((Universe.new 4 3 2 5).reset.width = (Universe.new 4 3 2 5).width ∧
      (Universe.new 4 3 2 5).reset.height = (Universe.new 4 3 2 5).height ∧
      (Universe.new 4 3 2 5).reset.cells.length =
        (Universe.new 4 3 2 5).reset.width * (Universe.new 4 3 2 5).reset.height ∧
      getCell (Universe.new 4 3 2 5).reset.cells 5 = Cell.Dead) ∧
    (((Universe.new 4 3 2 5).set_width 2).width = 2 ∧
      ((Universe.new 4 3 2 5).set_width 2).height = (Universe.new 4 3 2 5).height ∧
      ((Universe.new 4 3 2 5).set_width 2).cells.length =
        ((Universe.new 4 3 2 5).set_width 2).width *
          ((Universe.new 4 3 2 5).set_width 2).height ∧
      getCell ((Universe.new 4 3 2 5).set_width 2).cells 4 = Cell.Dead) ∧
    (((Universe.new 4 3 2 5).set_height 7).height = 7 ∧
      ((Universe.new 4 3 2 5).set_height 7).width = (Universe.new 4 3 2 5).width ∧
      ((Universe.new 4 3 2 5).set_height 7).cells.length =
        ((Universe.new 4 3 2 5).set_height 7).width *
          ((Universe.new 4 3 2 5).set_height 7).height ∧
      getCell ((Universe.new 4 3 2 5).set_height 7).cells 20 = Cell.Dead)) :=
  reset_resize_clear (Universe.new 4 3 2 5) 2 7 5 4 20
    (by decide) (by decide) (by decide)

/-- Claim C10: `tick()`, `set_cells`, and `toggle_cell` leave both the width
and the height of the universe unchanged. -/
theorem ops_preserve_dims (u : Universe) (coords : List (Nat × Nat)) (row col : Nat) :
    u.tick.width = u.width ∧ u.tick.height = u.height ∧
    (u.set_cells coords).width = u.width ∧ (u.set_cells coords).height = u.height ∧
    (u.toggle_cell row col).width = u.width ∧
    (u.toggle_cell row col).height = u.height :=
  ⟨rfl, rfl, rfl, rfl, rfl, rfl⟩

/-! ## `set_cells` characterization -/

lemma foldl_setAlive_getCell (u : Universe) (coords : List (Nat × Nat))
    (init : List Cell) (hcoords : ∀ p ∈ coords, p.1 < u.height ∧ p.2 < u.width)
    (row col : Nat) (hrow : row < u.height) (hcol : col < u.width)
    (hlen : u.width * u.height ≤ init.length) :
    getCell (coords.foldl (fun cs p => cs.set (u.get_index p.1 p.2) Cell.Alive) init)
        (u.get_index row col) =
      if (row, col) ∈ coords then Cell.Alive
      else getCell init (u.get_index row col) := by
  induction coords generalizing init with
  | nil => simp
  | cons p ps ih =>
    rw [List.foldl_cons, ih (init.set (u.get_index p.1 p.2) Cell.Alive)
      (fun q hq => hcoords q (List.mem_cons_of_mem p hq)) (by simpa using hlen),
      getCell_set]
    have hp := hcoords p (List.mem_cons_self p ps)
    by_cases hmem : (row, col) ∈ ps
    · simp [hmem]
    · by_cases hpeq : (row, col) = p
      · have hidx : u.get_index p.1 p.2 = u.get_index row col := by rw [← hpeq]
        have hlt : u.get_index row col < init.length :=
          Nat.lt_of_lt_of_le (get_index_lt u row col hrow hcol) hlen
        simp [hmem, hpeq, hidx, hlt]
      · have hidx : u.get_index p.1 p.2 ≠ u.get_index row col := by
          intro he
          exact hpeq (by
            obtain ⟨h1, h2⟩ := get_index_inj u p.1 p.2 row col hp.2 hcol he
            simp [Prod.ext_iff, h1, h2])
        simp [hmem, hpeq, hidx]

lemma set_cells_cells_length (u : Universe) (coords : List (Nat × Nat)) :
    (u.set_cells coords).cells.length = u.cells.length :=
  length_foldl_set coords _ _ u.cells

/-- Claim C9: `set_cells` with in-range coordinates sets every listed
`(row, column)` to `Alive` and leaves every unlisted in-range position at
its previous state. -/
theorem set_cells_effect (u : Universe) (coords : List (Nat × Nat))
    (hcoords : ∀ p ∈ coords, p.1 < u.height ∧ p.2 < u.width)
    (hlen : u.cells.length = u.width * u.height)
    (row col : Nat) (hrow : row < u.height) (hcol : col < u.width) :
    ((row, col) ∈ coords →
      getCell (u.set_cells coords).cells (u.get_index row col) = Cell.Alive) ∧
    ((row, col) ∉ coords →
      getCell (u.set_cells coords).cells (u.get_index row col) =
        getCell u.cells (u.get_index row col)) := by
  have h := foldl_setAlive_getCell u coords u.cells hcoords row col hrow hcol
    (Nat.le_of_eq hlen.symm)
  rw [show (u.set_cells coords).cells =
    coords.foldl (fun cs p => cs.set (u.get_index p.1 p.2) Cell.Alive) u.cells
    from rfl]
  constructor
  · intro hmem
    rw [h, if_pos hmem]
  · intro hmem
    rw [h, if_neg hmem]

/-- Witness for C9 on a concrete grid and coordinate list. -/
theorem set_cells_effect_witness :
    ((1, 2) ∈ [((1 : Nat), (2 : Nat)), (0, 0)] →
      getCell ((Universe.new 4 3 2 5).set_cells [(1, 2), (0, 0)]).cells
        ((Universe.new 4 3 2 5).get_index 1 2) = Cell.Alive) ∧
    ((1, 2) ∉ [((1 : Nat), (2 : Nat)), (0, 0)] →
      getCell ((Universe.new 4 3 2 5).set_cells [(1, 2), (0, 0)]).cells
        ((Universe.new 4 3 2 5).get_index 1 2) =
        getCell (Universe.new 4 3 2 5).cells
          ((Universe.new 4 3 2 5).get_index 1 2)) :=
  set_cells_effect (Universe.new 4 3 2 5) [(1, 2), (0, 0)]
    (by decide) (by decide) 1 2 (by decide) (by decide)

/-! ## Buffer-length invariant over all reachable states -/

lemma tick_cells_length (u : Universe) : u.tick.cells.length = u.cells.length :=
  length_foldl_of_preserve _ _
    (fun cs row => length_foldl_set (List.range u.width) _ _ cs) u.cells

/-- The states reachable through the public constructors and mutators of
`Universe`, with the preconditions the spec imposes on callers (non-zero
divisors for `new`, in-range coordinates for `set_cells`/`toggle_cell`). -/
inductive Reachable : Universe → Prop where
  | new : ∀ w h a b, a ≠ 0 → b ≠ 0 → Reachable (Universe.new w h a b)
  | tick : ∀ u, Reachable u → Reachable u.tick
  | reset : ∀ u, Reachable u → Reachable u.reset
  | set_width : ∀ u w, Reachable u → Reachable (u.set_width w)
  | set_height : ∀ u h, Reachable u → Reachable (u.set_height h)
  | set_cells : ∀ u coords, Reachable u →
      (∀ p ∈ coords, p.1 < u.height ∧ p.2 < u.width) →
      Reachable (u.set_cells coords)
  | toggle_cell : ∀ u row col, Reachable u → row < u.height → col < u.width →
      Reachable (u.toggle_cell row col)

/-- Claim C5: every reachable universe keeps the invariant
`cells.length = width * height`. -/
theorem reachable_length_invariant (u : Universe) (hu : Reachable u) :
    u.cells.length = u.width * u.height := by
  induction hu with
  | new w h a b ha hb => simp [Universe.new]
  | tick v hv ih => rw [tick_cells_length]; exact ih
  | reset v hv ih => simp [Universe.reset]
  | set_width v w hv ih => simp [Universe.set_width]
  | set_height v h hv ih => simp [Universe.set_height]
  | set_cells v coords hv hc ih => rw [set_cells_cells_length]; exact ih
  | toggle_cell v row col hv hr hc ih => simpa [Universe.toggle_cell] using ih

/-- Witness for C5 on a concrete reachable state. -/
theorem reachable_length_invariant_witness :
    (((Universe.new 4 3 2 5).set_cells [(1, 2)]).tick.toggle_cell 2 1).cells.length =
      (((Universe.new 4 3 2 5).set_cells [(1, 2)]).tick.toggle_cell 2 1).width *
        (((Universe.new 4 3 2 5).set_cells [(1, 2)]).tick.toggle_cell 2 1).height :=
  reachable_length_invariant _
    (Reachable.toggle_cell _ 2 1
      (Reachable.tick _
        (Reachable.set_cells _ [(1, 2)]
          (Reachable.new 4 3 2 5 (by decide) (by decide)) (by decide)))
      (by decide) (by decide))

/-! ## Pointwise characterization of `tick` -/

lemma getCell_foldl_set_range (w base : Nat) (f : Nat → Cell) (init : List Cell)
    (j : Nat) :
    getCell ((List.range w).foldl (fun cs k => cs.set (base + k) (f k)) init) j =
      if base ≤ j ∧ j < base + w ∧ j < init.length then f (j - base)
      else getCell init j := by
  induction w with
  | zero =>
    rw [List.range_zero, List.foldl_nil, if_neg (by omega)]
  | succ w ih =>
    rw [List.range_succ, List.foldl_append, List.foldl_cons, List.foldl_nil,
      getCell_set, length_foldl_set, ih]
    split_ifs with h1 h2 h3 h4 h5 <;> first
      | rfl
      | omega
      | (congr 1; omega)

lemma getCell_grid_foldl (u : Universe) (F : Nat → Nat → Cell) (h : Nat)
    (init : List Cell) (row col : Nat) (hrow : row < h) (hcol : col < u.width)
    (hlen : row * u.width + col < init.length) :
    getCell ((List.range h).foldl
        (fun next r => (List.range u.width).foldl
          (fun next2 c => next2.set (u.get_index r c) (F r c)) next) init)
      (row * u.width + col) = F row col := by
  induction h with
  | zero => omega
  | succ h ih =>
    rw [List.range_succ, List.foldl_append, List.foldl_cons, List.foldl_nil]
    simp only [Universe.get_index]
    rw [getCell_foldl_set_range]
    have hprevlen : ((List.range h).foldl
        (fun next r => (List.range u.width).foldl
          (fun next2 c => next2.set (u.get_index r c) (F r c)) next) init).length =
        init.length :=
      length_foldl_of_preserve _ _
        (fun cs r => length_foldl_set (List.range u.width) _ _ cs) init
    simp only [Universe.get_index] at hprevlen
    by_cases hr : row = h
    · subst hr
      rw [if_pos ⟨Nat.le_add_right _ _, by omega, by omega⟩]
      congr 1
      omega
    · have hrow2 : row < h := by omega
      have hmul : (row + 1) * u.width ≤ h * u.width :=
        Nat.mul_le_mul_right u.width (by omega)
      have hsucc : (row + 1) * u.width = row * u.width + u.width := Nat.succ_mul _ _
      rw [if_neg (by omega)]
      exact ih hrow2

lemma getCell_tick_index (u : Universe) (row col : Nat) (hrow : row < u.height)
    (hcol : col < u.width) (hlen : u.get_index row col < u.cells.length) :
    getCell u.tick.cells (u.get_index row col) =
      nextCellState (getCell u.cells (u.get_index row col))
        (u.live_neighbor_count row col) := by
  rw [show u.tick.cells = (List.range u.height).foldl
      (fun next r => (List.range u.width).foldl
        (fun next2 c => next2.set (u.get_index r c)
          (nextCellState (getCell u.cells (u.get_index r c))
            (u.live_neighbor_count r c))) next) u.cells from rfl]
  have := getCell_grid_foldl u
    (fun r c => nextCellState (getCell u.cells (u.get_index r c))
      (u.live_neighbor_count r c))
    u.height u.cells row col hrow hcol (by simpa [Universe.get_index] using hlen)
  simpa [Universe.get_index] using this

/-- Claim C1: on a positive-dimension grid, `tick()` gives each in-range cell
the state determined by its pre-tick state and its pre-tick live-neighbor
count: a live cell with fewer than 2 live neighbors dies, a live cell with 2
or 3 survives, a live cell with more than 3 dies, a dead cell with exactly 3
becomes alive, and any other dead cell stays dead; the count is taken on the
pre-tick buffer `u.cells`. -/
theorem tick_rule (u : Universe) (hw : 0 < u.width) (hh : 0 < u.height)
    (hlen : u.cells.length = u.width * u.height) (row col : Nat)
    (hrow : row < u.height) (hcol : col < u.width) :
    getCell u.tick.cells (u.get_index row col) =
      nextCellState (getCell u.cells (u.get_index row col))
        (u.live_neighbor_count row col) ∧
    (getCell u.cells (u.get_index row col) = Cell.Alive →
      u.live_neighbor_count row col < 2 →
      getCell u.tick.cells (u.get_index row col) = Cell.Dead) ∧
    (getCell u.cells (u.get_index row col) = Cell.Alive →
      (u.live_neighbor_count row col = 2 ∨ u.live_neighbor_count row col = 3) →
      getCell u.tick.cells (u.get_index row col) = Cell.Alive) ∧
    (getCell u.cells (u.get_index row col) = Cell.Alive →
      3 < u.live_neighbor_count row col →
      getCell u.tick.cells (u.get_index row col) = Cell.Dead) ∧
    (getCell u.cells (u.get_index row col) = Cell.Dead →
      u.live_neighbor_count row col = 3 →
      getCell u.tick.cells (u.get_index row col) = Cell.Alive) ∧
    (getCell u.cells (u.get_index row col) = Cell.Dead →
      u.live_neighbor_count row col ≠ 3 →
      getCell u.tick.cells (u.get_index row col) =
        getCell u.cells (u.get_index row col)) := by
  have hidx : u.get_index row col < u.cells.length := by
    rw [hlen]; exact get_index_lt u row col hrow hcol
  have hmain := getCell_tick_index u row col hrow hcol hidx
  refine ⟨hmain, ?_, ?_, ?_, ?_, ?_⟩ <;> intro hcell hcount <;>
    rw [hmain, hcell, nextCellState] <;> split_ifs <;> simp_all <;> omega

/-- Witness for C1 on a concrete grid and cell. -/
theorem tick_rule_witness :
    (getCell (Universe.new 4 3 2 5).tick.cells
        ((Universe.new 4 3 2 5).get_index 1 1) =
      nextCellState (getCell (Universe.new 4 3 2 5).cells
          ((Universe.new 4 3 2 5).get_index 1 1))
        ((Universe.new 4 3 2 5).live_neighbor_count 1 1)) ∧
    (getCell (Universe.new 4 3 2 5).cells
        ((Universe.new 4 3 2 5).get_index 1 1) = Cell.Alive →
      (Universe.new 4 3 2 5).live_neighbor_count 1 1 < 2 →
      getCell (Universe.new 4 3 2 5).tick.cells
        ((Universe.new 4 3 2 5).get_index 1 1) = Cell.Dead) ∧
    (getCell (Universe.new 4 3 2 5).cells
        ((Universe.new 4 3 2 5).get_index 1 1) = Cell.Alive →
      ((Universe.new 4 3 2 5).live_neighbor_count 1 1 = 2 ∨
        (Universe.new 4 3 2 5).live_neighbor_count 1 1 = 3) →
      getCell (Universe.new 4 3 2 5).tick.cells
        ((Universe.new 4 3 2 5).get_index 1 1) = Cell.Alive) ∧
    (getCell (Universe.new 4 3 2 5).cells
        ((Universe.new 4 3 2 5).get_index 1 1) = Cell.Alive →
      3 < (Universe.new 4 3 2 5).live_neighbor_count 1 1 →
      getCell (Universe.new 4 3 2 5).tick.cells
        ((Universe.new 4 3 2 5).get_index 1 1) = Cell.Dead) ∧
    (getCell (Universe.new 4 3 2 5).cells
        ((Universe.new 4 3 2 5).get_index 1 1) = Cell.Dead →
      (Universe.new 4 3 2 5).live_neighbor_count 1 1 = 3 →
      getCell (Universe.new 4 3 2 5).tick.cells
        ((Universe.new 4 3 2 5).get_index 1 1) = Cell.Alive) ∧
    (getCell (Universe.new 4 3 2 5).cells
        ((Universe.new 4 3 2 5).get_index 1 1) = Cell.Dead →
      (Universe.new 4 3 2 5).live_neighbor_count 1 1 ≠ 3 →
      getCell (Universe.new 4 3 2 5).tick.cells
        ((Universe.new 4 3 2 5).get_index 1 1) =
        getCell (Universe.new 4 3 2 5).cells
          ((Universe.new 4 3 2 5).get_index 1 1)) :=
  tick_rule (Universe.new 4 3 2 5) (by decide) (by decide) (by decide)
    1 1 (by decide) (by decide)

/-! ## Signed-modulo wrap (the spec's formulation of the neighbor count) -/

/-- The neighbor positions as the spec words them: row and column offsets
`{-1, 0, 1} × {-1, 0, 1}` excluding `(0, 0)`, wrapped by signed modulo
(`Int.emod`, which is nonnegative for a positive modulus). -/
def signedNeighborPositions (u : Universe) (row column : Nat) : List (Nat × Nat) :=
  ((([(-1 : Int), 0, 1].map fun dr =>
      [(-1 : Int), 0, 1].map fun dc => (dr, dc)).flatten).filter
    fun p => !(p.1 == 0 && p.2 == 0)).map
    fun p => ((((row : Int) + p.1) % (u.height : Int)).toNat,
              (((column : Int) + p.2) % (u.width : Int)).toNat)

/-- The live-neighbor count with signed-modulo wrap, per the spec. -/
def signedNeighborCount (u : Universe) (row column : Nat) : Nat :=
  ((signedNeighborPositions u row column).map fun p =>
    cellVal (getCell u.cells (u.get_index p.1 p.2))).sum

lemma wrap_neg_one (x m : Nat) (hm : 0 < m) (hx : x < m) :
    (x + (m - 1)) % m = (((x : Int) + -1) % (m : Int)).toNat := by
  cases x with
  | zero =>
    have h1 : (m - 1) % m = m - 1 := Nat.mod_eq_of_lt (by omega)
    have h4 : ((-1 : Int) + (m : Int) * 1) % (m : Int) = (-1 : Int) % (m : Int) :=
      Int.add_mul_emod_self_left (-1) (m : Int) 1
    have h5 : ((-1 : Int) + (m : Int) * 1) = (m : Int) - 1 := by ring
    have h6 : ((m : Int) - 1) % (m : Int) = (m : Int) - 1 :=
      Int.emod_eq_of_lt (by omega) (by omega)
    have h2 : ((0 : Int) + -1) % (m : Int) = (m : Int) - 1 := by
      rw [show ((0 : Int) + -1) = -1 by ring, ← h4, h5, h6]
    rw [Nat.zero_add, h1]
    simp only [Nat.cast_zero, h2]
    omega
  | succ y =>
    have h1 : y + 1 + (m - 1) = y + m := by omega
    have h2 : (y + m) % m = y % m := Nat.add_mod_right y m
    have h3 : y % m = y := Nat.mod_eq_of_lt (by omega)
    have h4 : (((y : Int) + 1) + -1) % (m : Int) = (y : Int) := by
      rw [show (((y : Int) + 1) + -1) = (y : Int) by ring]
      exact Int.emod_eq_of_lt (by omega) (by omega)
    rw [h1, h2, h3]
    have h5 : (((y + 1 : Nat)) : Int) = (y : Int) + 1 := by push_cast; ring
    rw [h5, h4]
    omega

lemma wrap_zero (x m : Nat) (hx : x < m) :
    x % m = (((x : Int) + 0) % (m : Int)).toNat := by
  rw [Nat.mod_eq_of_lt hx, add_zero]
  rw [Int.emod_eq_of_lt (by omega) (by omega)]
  omega

lemma wrap_add_one (x m : Nat) (hm : 0 < m) :
    (x + 1) % m = (((x : Int) + 1) % (m : Int)).toNat := by
  have h1 : ((x : Int) + 1) % (m : Int) = (((x + 1) % m : Nat) : Int) := by
    rw [Int.natCast_mod]
    push_cast
    ring_nf
  rw [h1, Int.toNat_ofNat]

lemma wrap_neg_one_two (x a : Nat) (hx : x < a + 2) :
    (x + (a + 1)) % (a + 2) = (((x : Int) + -1) % ((a : Int) + 2)).toNat := by
  have h := wrap_neg_one x (a + 2) (by omega) hx
  have h2 : ((a + 2 : Nat) : Int) = (a : Int) + 2 := by push_cast; ring
  rw [show a + 2 - 1 = a + 1 from by omega, h2] at h
  exact h

lemma wrap_zero_two (x a : Nat) (hx : x < a + 2) :
    x % (a + 2) = ((x : Int) % ((a : Int) + 2)).toNat := by
  have h := wrap_zero x (a + 2) hx
  have h2 : ((a + 2 : Nat) : Int) = (a : Int) + 2 := by push_cast; ring
  rw [add_zero, h2] at h
  exact h

lemma wrap_add_one_two (x a : Nat) :
    (x + 1) % (a + 2) = (((x : Int) + 1) % ((a : Int) + 2)).toNat := by
  have h := wrap_add_one x (a + 2) (by omega)
  have h2 : ((a + 2 : Nat) : Int) = (a : Int) + 2 := by push_cast; ring
  rw [h2] at h
  exact h

lemma neighborPositions_eq_signed (u : Universe) (row col : Nat)
    (hh : 2 ≤ u.height) (hw : 2 ≤ u.width)
    (hrow : row < u.height) (hcol : col < u.width) :
    neighborPositions u row col = signedNeighborPositions u row col := by
  obtain ⟨a, ha⟩ : ∃ a, u.height = a + 2 := ⟨u.height - 2, by omega⟩
  obtain ⟨b, hb⟩ : ∃ b, u.width = b + 2 := ⟨u.width - 2, by omega⟩
  simp [neighborPositions, signedNeighborPositions, ha, hb]
  have hrow2 : row < a + 2 := by omega
  have hcol2 : col < b + 2 := by omega
  exact ⟨⟨wrap_neg_one_two row a hrow2, wrap_neg_one_two col b hcol2⟩,
    ⟨wrap_neg_one_two row a hrow2, wrap_zero_two col b hcol2⟩,
    ⟨wrap_neg_one_two row a hrow2, wrap_add_one_two col b⟩,
    ⟨wrap_zero_two row a hrow2, wrap_neg_one_two col b hcol2⟩,
    ⟨wrap_zero_two row a hrow2, wrap_add_one_two col b⟩,
    ⟨wrap_add_one_two row a, wrap_neg_one_two col b hcol2⟩,
    ⟨wrap_add_one_two row a, wrap_zero_two col b hcol2⟩,
    wrap_add_one_two row a, wrap_add_one_two col b⟩

/-- Counterexample to claim C2 as stated: on the 3×1 grid of
`new(3, 1, 1, 1)` (all cells alive), the code's `live_neighbor_count(0,0)`
is 7 — the value-based skip `delta_row == 0 && delta_col == 0` also fires
for the wrapped `height - 1 = 0` delta — while signed-modulo wrap over the
8 offsets gives 8. -/
theorem live_neighbor_count_signed_counterexample :
    ¬ ((Universe.new 3 1 1 1).live_neighbor_count 0 0 =
      signedNeighborCount (Universe.new 3 1 1 1) 0 0) := by decide

/-- Claim C2 (amended: the equivalence requires `width ≥ 2` and
`height ≥ 2`, not merely positive dimensions): for every in-range cell,
the code's `live_neighbor_count` — which realizes the `-1` offset as an
addition of `height-1` (resp. `width-1`) followed by `mod` — equals the
count over the 8 offsets `{-1,0,1} × {-1,0,1}` minus `(0,0)` with
signed-modulo toroidal wrap. -/
theorem live_neighbor_count_eq_signed (u : Universe) (hh : 2 ≤ u.height)
    (hw : 2 ≤ u.width) (row col : Nat)
    (hrow : row < u.height) (hcol : col < u.width) :
    u.live_neighbor_count row col = signedNeighborCount u row col := by
  unfold Universe.live_neighbor_count signedNeighborCount
  rw [neighborPositions_eq_signed u row col hh hw hrow hcol]

/-- Witness for the amended C2 on a concrete grid and cell. -/
theorem live_neighbor_count_eq_signed_witness :
    (Universe.new 4 3 2 5).live_neighbor_count 0 3 =
      signedNeighborCount (Universe.new 4 3 2 5) 0 3 :=
  live_neighbor_count_eq_signed (Universe.new 4 3 2 5) (by decide) (by decide)
    0 3 (by decide) (by decide)

/-! ## Corner and edge wrap-around -/

/-- Claim C3: the positions summed by `live_neighbor_count` (which is
exactly the sum over `neighborPositions`, first conjunct) include, for
cell `(0,0)`, the opposite corner `(height-1, width-1)`; symmetrically for
the other three corners, and for both axis edges: the top row wraps to the
bottom row and the left column wraps to the right column. -/
theorem corner_edge_wrap (u : Universe) (hw : 0 < u.width) (hh : 0 < u.height)
    (row col : Nat) (hrow : row < u.height) (hcol : col < u.width) :
    u.live_neighbor_count 0 0 =
      ((neighborPositions u 0 0).map fun p =>
        cellVal (getCell u.cells (u.get_index p.1 p.2))).sum ∧
    (u.height - 1, u.width - 1) ∈ neighborPositions u 0 0 ∧
    (u.height - 1, 0) ∈ neighborPositions u 0 (u.width - 1) ∧
    (0, u.width - 1) ∈ neighborPositions u (u.height - 1) 0 ∧
    (0, 0) ∈ neighborPositions u (u.height - 1) (u.width - 1) ∧
    (u.height - 1, col) ∈ neighborPositions u 0 col ∧
    (row, u.width - 1) ∈ neighborPositions u row 0 := by
  refine ⟨rfl, ?_, ?_, ?_, ?_, ?_, ?_⟩
  all_goals simp only [neighborPositions, List.map_cons, List.map_nil,
    List.flatten, List.mem_map, List.mem_filter]
  all_goals simp
  · by_cases hcase : u.height = 1 ∧ u.width = 1
    · refine ⟨1, 1, ⟨by omega, by omega⟩, ?_, ?_⟩ <;>
        simp [hcase.1, hcase.2]
    · refine ⟨u.height - 1, u.width - 1, ⟨by omega, by omega⟩, ?_, ?_⟩ <;>
        rw [Nat.mod_eq_of_lt (by omega)]
  · refine ⟨u.height - 1, 1, ⟨by omega, by omega⟩, ?_, ?_⟩
    · rw [Nat.mod_eq_of_lt (by omega)]
    · rw [Nat.sub_add_cancel (by omega), Nat.mod_self]
  · refine ⟨1, u.width - 1, ⟨by omega, by omega⟩, ?_, ?_⟩
    · rw [Nat.sub_add_cancel (by omega), Nat.mod_self]
    · rw [Nat.mod_eq_of_lt (by omega)]
  · refine ⟨1, 1, ⟨by omega, by omega⟩, ?_, ?_⟩ <;>
      rw [Nat.sub_add_cancel (by omega), Nat.mod_self]
  · by_cases hcase : u.height = 1
    · refine ⟨1, 0, ⟨by omega, by omega⟩, ?_, ?_⟩
      · rw [hcase]
      · simp [Nat.mod_eq_of_lt hcol]
    · refine ⟨u.height - 1, 0, ⟨by omega, by omega⟩, ?_, ?_⟩
      · rw [Nat.mod_eq_of_lt (by omega)]
      · simp [Nat.mod_eq_of_lt hcol]
  · by_cases hcase : u.width = 1
    · refine ⟨0, 1, ⟨by omega, by omega⟩, ?_, ?_⟩
      · simp [Nat.mod_eq_of_lt hrow]
      · rw [hcase]
    · refine ⟨0, u.width - 1, ⟨by omega, by omega⟩, ?_, ?_⟩
      · simp [Nat.mod_eq_of_lt hrow]
      · rw [Nat.mod_eq_of_lt (by omega)]

/-- Witness for C3 on a concrete grid. -/
theorem corner_edge_wrap_witness :
    (Universe.new 4 3 2 5).live_neighbor_count 0 0 =
      ((neighborPositions (Universe.new 4 3 2 5) 0 0).map fun p =>
        cellVal (getCell (Universe.new 4 3 2 5).cells
          ((Universe.new 4 3 2 5).get_index p.1 p.2))).sum ∧
    ((Universe.new 4 3 2 5).height - 1, (Universe.new 4 3 2 5).width - 1) ∈
      neighborPositions (Universe.new 4 3 2 5) 0 0 ∧
    ((Universe.new 4 3 2 5).height - 1, 0) ∈
      neighborPositions (Universe.new 4 3 2 5) 0 ((Universe.new 4 3 2 5).width - 1) ∧
    (0, (Universe.new 4 3 2 5).width - 1) ∈
      neighborPositions (Universe.new 4 3 2 5) ((Universe.new 4 3 2 5).height - 1) 0 ∧
    (0, 0) ∈ neighborPositions (Universe.new 4 3 2 5)
      ((Universe.new 4 3 2 5).height - 1) ((Universe.new 4 3 2 5).width - 1) ∧
    ((Universe.new 4 3 2 5).height - 1, 2) ∈
      neighborPositions (Universe.new 4 3 2 5) 0 2 ∧
    (1, (Universe.new 4 3 2 5).width - 1) ∈
      neighborPositions (Universe.new 4 3 2 5) 1 0 :=
  corner_edge_wrap (Universe.new 4 3 2 5) (by decide) (by decide)
    1 2 (by decide) (by decide)

/-! ## Render format -/

lemma take_drop_eq_map_range (l : List Cell) (a w : Nat) (h : a + w ≤ l.length) :
    (l.drop a).take w = (List.range w).map fun k => getCell l (a + k) := by
  apply List.ext_getElem
  · simp
    omega
  · intro i h1 h2
    simp only [List.getElem_take, List.getElem_drop, List.getElem_map,
      List.getElem_range]
    rw [getCell, List.getD_eq_getElem?_getD,
      List.getElem?_eq_getElem (by simp at h1 ⊢; omega)]
    rfl

lemma chunksOf_of_length (w : Nat) (hw : 0 < w) :
    ∀ (h : Nat) (l : List Cell), l.length = w * h →
      chunksOf w l = (List.range h).map fun row => (l.drop (row * w)).take w := by
  intro h
  induction h with
  | zero =>
    intro l hl
    have hnil : l = [] := List.eq_nil_of_length_eq_zero (by simpa using hl)
    subst hnil
    rw [chunksOf]
    simp
  | succ h ih =>
    intro l hl
    have hmul : w * (h + 1) = w * h + w := Nat.mul_succ w h
    have hne : l ≠ [] := by
      intro he
      rw [he] at hl
      simp at hl
      omega
    rw [chunksOf, dif_neg (by push_neg; exact ⟨by omega, hne⟩)]
    have hdroplen : (l.drop w).length = w * h := by
      simp [hl]
      omega
    rw [ih (l.drop w) hdroplen, List.range_succ_eq_map, List.map_cons,
      List.map_map]
    congr 1
    · simp
    · apply List.map_congr_left
      intro row hrow
      simp only [Function.comp_apply]
      rw [List.drop_drop]
      rw [show (Nat.succ row) * w = w + row * w from by rw [Nat.succ_mul]; omega]

/-- Claim C8: `render()` is the row-by-row text: one string per row in row
order, each the concatenation of one fixed 3-character field per cell in
column order — `"   "` for `Dead`, `" ◼ "` for `Alive` — followed by a
newline, all `height` of them joined in order. -/
theorem render_format (u : Universe) (hw : 0 < u.width)
    (hlen : u.cells.length = u.width * u.height) :
    u.render = String.join ((List.range u.height).map fun row =>
      String.join ((List.range u.width).map fun col =>
        cellSymbol (getCell u.cells (u.get_index row col))) ++ "\n") ∧
    cellSymbol Cell.Dead = "   " ∧ cellSymbol Cell.Alive = " ◼ " ∧
    (cellSymbol Cell.Dead).length = 3 ∧ (cellSymbol Cell.Alive).length = 3 := by
  refine ⟨?_, rfl, rfl, by decide, by decide⟩
  rw [show u.render = String.join ((chunksOf u.width u.cells).map fun line =>
    String.join (line.map cellSymbol) ++ "\n") from rfl]
  rw [chunksOf_of_length u.width hw u.height u.cells hlen, List.map_map]
  congr 1
  apply List.map_congr_left
  intro row hrow
  simp only [Function.comp_apply]
  have hbound : row * u.width + u.width ≤ u.cells.length := by
    simp at hrow
    have h1 : (row + 1) * u.width ≤ u.height * u.width :=
      Nat.mul_le_mul_right u.width (by omega)
    have h2 : (row + 1) * u.width = row * u.width + u.width := Nat.succ_mul _ _
    have h3 : u.height * u.width = u.width * u.height := Nat.mul_comm _ _
    omega
  rw [take_drop_eq_map_range u.cells (row * u.width) u.width hbound, List.map_map]
  rfl

/-- Witness for C8 on a concrete grid. -/
theorem render_format_witness :
    (Universe.new 2 2 2 3).render =
      String.join ((List.range (Universe.new 2 2 2 3).height).map fun row =>
        String.join ((List.range (Universe.new 2 2 2 3).width).map fun col =>
          cellSymbol (getCell (Universe.new 2 2 2 3).cells
            ((Universe.new 2 2 2 3).get_index row col))) ++ "\n") ∧
    cellSymbol Cell.Dead = "   " ∧ cellSymbol Cell.Alive = " ◼ " ∧
    (cellSymbol Cell.Dead).length = 3 ∧ (cellSymbol Cell.Alive).length = 3 :=
  render_format (Universe.new 2 2 2 3) (by decide) (by decide)

/-! ## Blinker oscillator -/

/-- Horizontal blinker scenario. -/
def blinkerH (W H r c : Nat) : Universe :=
  ((Universe.new W H 1 1).reset).set_cells [(r, c - 1), (r, c), (r, c + 1)]

/-- Vertical blinker scenario. -/
def blinkerV (W H r c : Nat) : Universe :=
  ((Universe.new W H 1 1).reset).set_cells [(r - 1, c), (r, c), (r + 1, c)]

lemma getCell_blinkerH (W H r c row col : Nat)
    (hrH : r + 2 < H) (h2c : 2 ≤ c) (hcW : c + 2 < W)
    (hrow : row < H) (hcol : col < W) :
    getCell (blinkerH W H r c).cells (row * W + col) =
      if row = r ∧ (col + 1 = c ∨ col = c ∨ col = c + 1) then Cell.Alive
      else Cell.Dead := by
  have hmem := foldl_setAlive_getCell ((Universe.new W H 1 1).reset)
    [(r, c - 1), (r, c), (r, c + 1)] ((Universe.new W H 1 1).reset).cells
    (by
      intro p hp
      simp at hp
      rcases hp with h | h | h <;> subst h <;>
        refine ⟨?_, ?_⟩ <;>
        simp only [show ((Universe.new W H 1 1).reset).height = H from rfl,
          show ((Universe.new W H 1 1).reset).width = W from rfl] <;> omega)
    row col
    (by rw [show ((Universe.new W H 1 1).reset).height = H from rfl]; exact hrow)
    (by rw [show ((Universe.new W H 1 1).reset).width = W from rfl]; exact hcol)
    (by
      rw [show ((Universe.new W H 1 1).reset).width = W from rfl,
        show ((Universe.new W H 1 1).reset).height = H from rfl]
      simp [Universe.reset, Universe.new])
  rw [show (blinkerH W H r c).cells =
    ([(r, c - 1), (r, c), (r, c + 1)].foldl
      (fun cs p => cs.set (((Universe.new W H 1 1).reset).get_index p.1 p.2)
        Cell.Alive) ((Universe.new W H 1 1).reset).cells) from rfl]
  rw [show ((Universe.new W H 1 1).reset).get_index row col = row * W + col from rfl]
    at hmem
  rw [hmem]
  have hdead : getCell ((Universe.new W H 1 1).reset).cells (row * W + col) =
      Cell.Dead := by
    rw [show ((Universe.new W H 1 1).reset).cells =
      (List.range (W * H)).map (fun _ => Cell.Dead) from by
        simp [Universe.reset, Universe.new], getCell_map_range]
    simp
  rw [hdead]
  have hiff : ((row, col) ∈ [(r, c - 1), (r, c), (r, c + 1)]) ↔
      (row = r ∧ (col + 1 = c ∨ col = c ∨ col = c + 1)) := by
    simp [Prod.ext_iff]
    omega
  simp only [hiff]

lemma getCell_blinkerV (W H r c row col : Nat)
    (h2r : 2 ≤ r) (hrH : r + 2 < H) (hcW : c + 2 < W)
    (hrow : row < H) (hcol : col < W) :
    getCell (blinkerV W H r c).cells (row * W + col) =
      if col = c ∧ (row + 1 = r ∨ row = r ∨ row = r + 1) then Cell.Alive
      else Cell.Dead := by
  have hmem := foldl_setAlive_getCell ((Universe.new W H 1 1).reset)
    [(r - 1, c), (r, c), (r + 1, c)] ((Universe.new W H 1 1).reset).cells
    (by
      intro p hp
      simp at hp
      rcases hp with h | h | h <;> subst h <;>
        refine ⟨?_, ?_⟩ <;>
        simp only [show ((Universe.new W H 1 1).reset).height = H from rfl,
          show ((Universe.new W H 1 1).reset).width = W from rfl] <;> omega)
    row col
    (by rw [show ((Universe.new W H 1 1).reset).height = H from rfl]; exact hrow)
    (by rw [show ((Universe.new W H 1 1).reset).width = W from rfl]; exact hcol)
    (by
      rw [show ((Universe.new W H 1 1).reset).width = W from rfl,
        show ((Universe.new W H 1 1).reset).height = H from rfl]
      simp [Universe.reset, Universe.new])
  rw [show (blinkerV W H r c).cells =
    ([(r - 1, c), (r, c), (r + 1, c)].foldl
      (fun cs p => cs.set (((Universe.new W H 1 1).reset).get_index p.1 p.2)
        Cell.Alive) ((Universe.new W H 1 1).reset).cells) from rfl]
  rw [show ((Universe.new W H 1 1).reset).get_index row col = row * W + col from rfl]
    at hmem
  rw [hmem]
  have hdead : getCell ((Universe.new W H 1 1).reset).cells (row * W + col) =
      Cell.Dead := by
    rw [show ((Universe.new W H 1 1).reset).cells =
      (List.range (W * H)).map (fun _ => Cell.Dead) from by
        simp [Universe.reset, Universe.new], getCell_map_range]
    simp
  rw [hdead]
  have hiff : ((row, col) ∈ [(r - 1, c), (r, c), (r + 1, c)]) ↔
      (col = c ∧ (row + 1 = r ∨ row = r ∨ row = r + 1)) := by
    simp [Prod.ext_iff]
    omega
  simp only [hiff]

lemma mod_pred (x m : Nat) (hx : x < m) (hm : 0 < m) :
    (x + (m - 1)) % m = if x = 0 then m - 1 else x - 1 := by
  cases x with
  | zero =>
    rw [if_pos rfl, Nat.zero_add, Nat.mod_eq_of_lt (by omega)]
  | succ y =>
    rw [if_neg (by omega), show y + 1 + (m - 1) = y + m from by omega,
      Nat.add_mod_right, Nat.mod_eq_of_lt (by omega)]
    omega

lemma mod_succ (x m : Nat) (hx : x < m) :
    (x + 1) % m = if x = m - 1 then 0 else x + 1 := by
  by_cases h : x = m - 1
  · rw [if_pos h, h, Nat.sub_add_cancel (by omega), Nat.mod_self]
  · rw [if_neg h, Nat.mod_eq_of_lt (by omega)]

lemma cellVal_ite (P : Prop) [Decidable P] :
    cellVal (if P then Cell.Alive else Cell.Dead) = if P then 1 else 0 := by
  split_ifs <;> rfl

lemma neighborPositions_explicit (u : Universe) (row col : Nat)
    (hh : 2 ≤ u.height) (hw : 2 ≤ u.width) :
    neighborPositions u row col =
      [((row + (u.height - 1)) % u.height, (col + (u.width - 1)) % u.width),
       ((row + (u.height - 1)) % u.height, col % u.width),
       ((row + (u.height - 1)) % u.height, (col + 1) % u.width),
       (row % u.height, (col + (u.width - 1)) % u.width),
       (row % u.height, (col + 1) % u.width),
       ((row + 1) % u.height, (col + (u.width - 1)) % u.width),
       ((row + 1) % u.height, col % u.width),
       ((row + 1) % u.height, (col + 1) % u.width)] := by
  obtain ⟨a, ha⟩ : ∃ a, u.height = a + 2 := ⟨u.height - 2, by omega⟩
  obtain ⟨b, hb⟩ : ∃ b, u.width = b + 2 := ⟨u.width - 2, by omega⟩
  simp [neighborPositions, ha, hb]

lemma count_blinkerH (W H r c row col : Nat)
    (h2r : 2 ≤ r) (hrH : r + 2 < H) (h2c : 2 ≤ c) (hcW : c + 2 < W)
    (hrow : row < H) (hcol : col < W) :
    (blinkerH W H r c).live_neighbor_count row col =
      if row + 1 = r ∨ row = r + 1 then
        (if col = c then 3
         else if col + 1 = c ∨ col = c + 1 then 2
         else if col + 2 = c ∨ col = c + 2 then 1 else 0)
      else if row = r then
        (if col = c then 2
         else if col + 1 = c ∨ col = c + 1 ∨ col + 2 = c ∨ col = c + 2 then 1
         else 0)
      else 0 := by
  have hWd : (blinkerH W H r c).width = W := rfl
  have hHd : (blinkerH W H r c).height = H := rfl
  unfold Universe.live_neighbor_count
  rw [neighborPositions_explicit _ row col (by rw [hHd]; omega)
    (by rw [hWd]; omega), hWd, hHd]
  simp only [List.map_cons, List.map_nil, List.sum_cons, List.sum_nil,
    Universe.get_index, hWd]
  rw [getCell_blinkerH W H r c ((row + (H - 1)) % H) ((col + (W - 1)) % W)
      hrH h2c hcW (Nat.mod_lt _ (by omega)) (Nat.mod_lt _ (by omega)),
    getCell_blinkerH W H r c ((row + (H - 1)) % H) (col % W)
      hrH h2c hcW (Nat.mod_lt _ (by omega)) (Nat.mod_lt _ (by omega)),
    getCell_blinkerH W H r c ((row + (H - 1)) % H) ((col + 1) % W)
      hrH h2c hcW (Nat.mod_lt _ (by omega)) (Nat.mod_lt _ (by omega)),
    getCell_blinkerH W H r c (row % H) ((col + (W - 1)) % W)
      hrH h2c hcW (Nat.mod_lt _ (by omega)) (Nat.mod_lt _ (by omega)),
    getCell_blinkerH W H r c (row % H) ((col + 1) % W)
      hrH h2c hcW (Nat.mod_lt _ (by omega)) (Nat.mod_lt _ (by omega)),
    getCell_blinkerH W H r c ((row + 1) % H) ((col + (W - 1)) % W)
      hrH h2c hcW (Nat.mod_lt _ (by omega)) (Nat.mod_lt _ (by omega)),
    getCell_blinkerH W H r c ((row + 1) % H) (col % W)
      hrH h2c hcW (Nat.mod_lt _ (by omega)) (Nat.mod_lt _ (by omega)),
    getCell_blinkerH W H r c ((row + 1) % H) ((col + 1) % W)
      hrH h2c hcW (Nat.mod_lt _ (by omega)) (Nat.mod_lt _ (by omega))]
  simp only [cellVal_ite]
  rw [mod_pred row H hrow (by omega), mod_succ row H hrow,
    Nat.mod_eq_of_lt hrow, mod_pred col W hcol (by omega), mod_succ col W hcol,
    Nat.mod_eq_of_lt hcol]
  simp only [show ((if row = 0 then H - 1 else row - 1) = r) ↔ row = r + 1 from
      by split_ifs <;> first | omega | (simp only [false_iff, iff_false, true_iff, iff_true]; omega),
    show ((if row = H - 1 then 0 else row + 1) = r) ↔ row + 1 = r from
      by split_ifs <;> first | omega | (simp only [false_iff, iff_false, true_iff, iff_true]; omega),
    show ((if col = 0 then W - 1 else col - 1) + 1 = c) ↔ col = c from
      by split_ifs <;> first | omega | (simp only [false_iff, iff_false, true_iff, iff_true]; omega),
    show ((if col = 0 then W - 1 else col - 1) = c) ↔ col = c + 1 from
      by split_ifs <;> first | omega | (simp only [false_iff, iff_false, true_iff, iff_true]; omega),
    show ((if col = 0 then W - 1 else col - 1) = c + 1) ↔ col = c + 2 from
      by split_ifs <;> first | omega | (simp only [false_iff, iff_false, true_iff, iff_true]; omega),
    show ((if col = W - 1 then 0 else col + 1) + 1 = c) ↔ col + 2 = c from
      by split_ifs <;> first | omega | (simp only [false_iff, iff_false, true_iff, iff_true]; omega),
    show ((if col = W - 1 then 0 else col + 1) = c) ↔ col + 1 = c from
      by split_ifs <;> first | omega | (simp only [false_iff, iff_false, true_iff, iff_true]; omega),
    show ((if col = W - 1 then 0 else col + 1) = c + 1) ↔ col = c from
      by split_ifs <;> first | omega | (simp only [false_iff, iff_false, true_iff, iff_true]; omega)]
  rcases (by omega :
      row = r + 1 ∨ row + 1 = r ∨ row = r ∨
        (¬row = r + 1 ∧ ¬(row + 1 = r) ∧ ¬row = r)) with
    hA | hA | hA | ⟨hA, hB, hC⟩
  · simp only [iff_true_intro hA, iff_false_intro (show ¬(row + 1 = r) from by omega),
      iff_false_intro (show ¬(row = r) from by omega), true_and, false_and, if_true,
      if_false, add_zero, zero_add, false_or, or_false]
    split_ifs <;> omega
  · simp only [iff_true_intro hA, iff_false_intro (show ¬(row = r + 1) from by omega),
      iff_false_intro (show ¬(row = r) from by omega), true_and, false_and, if_true,
      if_false, add_zero, zero_add, false_or, or_false, true_or, or_true]
    split_ifs <;> omega
  · simp only [iff_true_intro hA, iff_false_intro (show ¬(row = r + 1) from by omega),
      iff_false_intro (show ¬(row + 1 = r) from by omega), true_and, false_and, if_true,
      if_false, add_zero, zero_add, false_or, or_false]
    split_ifs <;> omega
  · simp only [iff_false_intro hA, iff_false_intro hB, iff_false_intro hC,
      false_and, if_false, add_zero, zero_add, false_or, or_false]

lemma count_blinkerV (W H r c row col : Nat)
    (h2r : 2 ≤ r) (hrH : r + 2 < H) (h2c : 2 ≤ c) (hcW : c + 2 < W)
    (hrow : row < H) (hcol : col < W) :
    (blinkerV W H r c).live_neighbor_count row col =
      if col = c then
        (if row = r then 2
         else if row + 1 = r ∨ row = r + 1 ∨ row + 2 = r ∨ row = r + 2 then 1
         else 0)
      else if col + 1 = c ∨ col = c + 1 then
        (if row = r then 3
         else if row + 1 = r ∨ row = r + 1 then 2
         else if row + 2 = r ∨ row = r + 2 then 1 else 0)
      else 0 := by
  have hWd : (blinkerV W H r c).width = W := rfl
  have hHd : (blinkerV W H r c).height = H := rfl
  unfold Universe.live_neighbor_count
  rw [neighborPositions_explicit _ row col (by rw [hHd]; omega)
    (by rw [hWd]; omega), hWd, hHd]
  simp only [List.map_cons, List.map_nil, List.sum_cons, List.sum_nil,
    Universe.get_index, hWd]
  rw [getCell_blinkerV W H r c ((row + (H - 1)) % H) ((col + (W - 1)) % W)
      h2r hrH hcW (Nat.mod_lt _ (by omega)) (Nat.mod_lt _ (by omega)),
    getCell_blinkerV W H r c ((row + (H - 1)) % H) (col % W)
      h2r hrH hcW (Nat.mod_lt _ (by omega)) (Nat.mod_lt _ (by omega)),
    getCell_blinkerV W H r c ((row + (H - 1)) % H) ((col + 1) % W)
      h2r hrH hcW (Nat.mod_lt _ (by omega)) (Nat.mod_lt _ (by omega)),
    getCell_blinkerV W H r c (row % H) ((col + (W - 1)) % W)
      h2r hrH hcW (Nat.mod_lt _ (by omega)) (Nat.mod_lt _ (by omega)),
    getCell_blinkerV W H r c (row % H) ((col + 1) % W)
      h2r hrH hcW (Nat.mod_lt _ (by omega)) (Nat.mod_lt _ (by omega)),
    getCell_blinkerV W H r c ((row + 1) % H) ((col + (W - 1)) % W)
      h2r hrH hcW (Nat.mod_lt _ (by omega)) (Nat.mod_lt _ (by omega)),
    getCell_blinkerV W H r c ((row + 1) % H) (col % W)
      h2r hrH hcW (Nat.mod_lt _ (by omega)) (Nat.mod_lt _ (by omega)),
    getCell_blinkerV W H r c ((row + 1) % H) ((col + 1) % W)
      h2r hrH hcW (Nat.mod_lt _ (by omega)) (Nat.mod_lt _ (by omega))]
  simp only [cellVal_ite]
  rw [mod_pred row H hrow (by omega), mod_succ row H hrow,
    Nat.mod_eq_of_lt hrow, mod_pred col W hcol (by omega), mod_succ col W hcol,
    Nat.mod_eq_of_lt hcol]
  simp only [show ((if col = 0 then W - 1 else col - 1) = c) ↔ col = c + 1 from
      by split_ifs <;> first | omega | (simp only [false_iff, iff_false, true_iff, iff_true]; omega),
    show ((if col = W - 1 then 0 else col + 1) = c) ↔ col + 1 = c from
      by split_ifs <;> first | omega | (simp only [false_iff, iff_false, true_iff, iff_true]; omega),
    show ((if row = 0 then H - 1 else row - 1) + 1 = r) ↔ row = r from
      by split_ifs <;> first | omega | (simp only [false_iff, iff_false, true_iff, iff_true]; omega),
    show ((if row = 0 then H - 1 else row - 1) = r) ↔ row = r + 1 from
      by split_ifs <;> first | omega | (simp only [false_iff, iff_false, true_iff, iff_true]; omega),
    show ((if row = 0 then H - 1 else row - 1) = r + 1) ↔ row = r + 2 from
      by split_ifs <;> first | omega | (simp only [false_iff, iff_false, true_iff, iff_true]; omega),
    show ((if row = H - 1 then 0 else row + 1) + 1 = r) ↔ row + 2 = r from
      by split_ifs <;> first | omega | (simp only [false_iff, iff_false, true_iff, iff_true]; omega),
    show ((if row = H - 1 then 0 else row + 1) = r) ↔ row + 1 = r from
      by split_ifs <;> first | omega | (simp only [false_iff, iff_false, true_iff, iff_true]; omega),
    show ((if row = H - 1 then 0 else row + 1) = r + 1) ↔ row = r from
      by split_ifs <;> first | omega | (simp only [false_iff, iff_false, true_iff, iff_true]; omega)]
  rcases (by omega :
      col = c ∨ col = c + 1 ∨ col + 1 = c ∨
        (¬col = c ∧ ¬col = c + 1 ∧ ¬(col + 1 = c))) with
    hA | hA | hA | ⟨hA, hB, hC⟩
  · simp only [iff_true_intro hA, iff_false_intro (show ¬(col = c + 1) from by omega),
      iff_false_intro (show ¬(col + 1 = c) from by omega), true_and, false_and,
      if_true, if_false, add_zero, zero_add, false_or, or_false]
    split_ifs <;> omega
  · simp only [iff_true_intro hA, iff_false_intro (show ¬(col = c) from by omega),
      iff_false_intro (show ¬(col + 1 = c) from by omega), true_and, false_and,
      if_true, if_false, add_zero, zero_add, false_or, or_false, true_or, or_true]
    split_ifs <;> omega
  · simp only [iff_true_intro hA, iff_false_intro (show ¬(col = c) from by omega),
      iff_false_intro (show ¬(col = c + 1) from by omega), true_and, false_and,
      if_true, if_false, add_zero, zero_add, false_or, or_false, true_or, or_true]
    split_ifs <;> omega
  · simp only [iff_false_intro hA, iff_false_intro hB, iff_false_intro hC,
      false_and, if_false, add_zero, zero_add, false_or, or_false]

lemma nextCellState_alive (n : Nat) :
    nextCellState Cell.Alive n = if n = 2 ∨ n = 3 then Cell.Alive else Cell.Dead := by
  unfold nextCellState
  simp only [show (Cell.Alive = Cell.Alive) ↔ True from by simp,
    show (Cell.Alive = Cell.Dead) ↔ False from by simp, true_and, false_and,
    if_false]
  split_ifs <;> first | rfl | omega | (exfalso; omega)

lemma nextCellState_dead (n : Nat) :
    nextCellState Cell.Dead n = if n = 3 then Cell.Alive else Cell.Dead := by
  unfold nextCellState
  simp only [show (Cell.Dead = Cell.Alive) ↔ False from by simp,
    show (Cell.Dead = Cell.Dead) ↔ True from by simp, true_and, false_and,
    if_false]

lemma blinkerH_tick_cell (W H r c row col : Nat)
    (h2r : 2 ≤ r) (hrH : r + 2 < H) (h2c : 2 ≤ c) (hcW : c + 2 < W)
    (hrow : row < H) (hcol : col < W) :
    nextCellState (getCell (blinkerH W H r c).cells (row * W + col))
      ((blinkerH W H r c).live_neighbor_count row col) =
    getCell (blinkerV W H r c).cells (row * W + col) := by
  rw [count_blinkerH W H r c row col h2r hrH h2c hcW hrow hcol,
    getCell_blinkerH W H r c row col hrH h2c hcW hrow hcol,
    getCell_blinkerV W H r c row col h2r hrH hcW hrow hcol]
  by_cases hP : row = r ∧ (col + 1 = c ∨ col = c ∨ col = c + 1)
  · rw [if_pos hP, nextCellState_alive]
    split_ifs <;> first | rfl | (exfalso; first | omega | assumption)
  · rw [if_neg hP, nextCellState_dead]
    split_ifs <;> first | rfl | (exfalso; first | omega | assumption)

lemma blinkerV_tick_cell (W H r c row col : Nat)
    (h2r : 2 ≤ r) (hrH : r + 2 < H) (h2c : 2 ≤ c) (hcW : c + 2 < W)
    (hrow : row < H) (hcol : col < W) :
    nextCellState (getCell (blinkerV W H r c).cells (row * W + col))
      ((blinkerV W H r c).live_neighbor_count row col) =
    getCell (blinkerH W H r c).cells (row * W + col) := by
  rw [count_blinkerV W H r c row col h2r hrH h2c hcW hrow hcol,
    getCell_blinkerV W H r c row col h2r hrH hcW hrow hcol,
    getCell_blinkerH W H r c row col hrH h2c hcW hrow hcol]
  by_cases hP : col = c ∧ (row + 1 = r ∨ row = r ∨ row = r + 1)
  · rw [if_pos hP, nextCellState_alive]
    split_ifs <;> first | rfl | (exfalso; first | omega | assumption)
  · rw [if_neg hP, nextCellState_dead]
    split_ifs <;> first | rfl | (exfalso; first | omega | assumption)

lemma universe_ext (u v : Universe) (hw : u.width = v.width)
    (hh : u.height = v.height) (hlen : u.cells.length = v.cells.length)
    (hcells : ∀ i, i < u.cells.length → getCell u.cells i = getCell v.cells i) :
    u = v := by
  obtain ⟨w1, h1, c1⟩ := u
  obtain ⟨w2, h2, c2⟩ := v
  dsimp only at hw hh hlen hcells
  subst hw
  subst hh
  have hc : c1 = c2 := by
    apply List.ext_getElem hlen
    intro i hi1 hi2
    have h := hcells i hi1
    rw [getCell, getCell, List.getD_eq_getElem?_getD, List.getD_eq_getElem?_getD,
      List.getElem?_eq_getElem hi1, List.getElem?_eq_getElem hi2] at h
    simpa using h
  rw [hc]

lemma blinkerH_length (W H r c : Nat) :
    (blinkerH W H r c).cells.length = W * H := by
  rw [show (blinkerH W H r c).cells.length =
    ((Universe.new W H 1 1).reset.set_cells
      [(r, c - 1), (r, c), (r, c + 1)]).cells.length from rfl,
    set_cells_cells_length]
  simp [Universe.reset, Universe.new]

lemma blinkerV_length (W H r c : Nat) :
    (blinkerV W H r c).cells.length = W * H := by
  rw [show (blinkerV W H r c).cells.length =
    ((Universe.new W H 1 1).reset.set_cells
      [(r - 1, c), (r, c), (r + 1, c)]).cells.length from rfl,
    set_cells_cells_length]
  simp [Universe.reset, Universe.new]

lemma tick_blinkerH (W H r c : Nat) (h2r : 2 ≤ r) (hrH : r + 2 < H)
    (h2c : 2 ≤ c) (hcW : c + 2 < W) :
    (blinkerH W H r c).tick = blinkerV W H r c := by
  apply universe_ext
  · rfl
  · rfl
  · rw [tick_cells_length, blinkerH_length, blinkerV_length]
  · intro i hi
    rw [tick_cells_length, blinkerH_length] at hi
    have hW0 : 0 < W := by omega
    have hrowlt : i / W < H := by
      rw [Nat.div_lt_iff_lt_mul hW0]
      have hcomm : W * H = H * W := Nat.mul_comm _ _
      omega
    have hcollt : i % W < W := Nat.mod_lt _ hW0
    have hdecomp : i / W * W + i % W = i := by
      have h1 := Nat.div_add_mod i W
      have h2 : W * (i / W) = i / W * W := Nat.mul_comm _ _
      omega
    have hilen : (blinkerH W H r c).get_index (i / W) (i % W) <
        (blinkerH W H r c).cells.length := by
      rw [blinkerH_length]
      rw [show (blinkerH W H r c).get_index (i / W) (i % W) =
        i / W * W + i % W from rfl, hdecomp]
      exact hi
    have htick := getCell_tick_index (blinkerH W H r c) (i / W) (i % W)
      hrowlt hcollt hilen
    rw [show (blinkerH W H r c).get_index (i / W) (i % W) =
      i / W * W + i % W from rfl, hdecomp] at htick
    rw [htick]
    have hstep := blinkerH_tick_cell W H r c (i / W) (i % W)
      h2r hrH h2c hcW hrowlt hcollt
    rw [hdecomp] at hstep
    exact hstep

lemma tick_blinkerV (W H r c : Nat) (h2r : 2 ≤ r) (hrH : r + 2 < H)
    (h2c : 2 ≤ c) (hcW : c + 2 < W) :
    (blinkerV W H r c).tick = blinkerH W H r c := by
  apply universe_ext
  · rfl
  · rfl
  · rw [tick_cells_length, blinkerH_length, blinkerV_length]
  · intro i hi
    rw [tick_cells_length, blinkerV_length] at hi
    have hW0 : 0 < W := by omega
    have hrowlt : i / W < H := by
      rw [Nat.div_lt_iff_lt_mul hW0]
      have hcomm : W * H = H * W := Nat.mul_comm _ _
      omega
    have hcollt : i % W < W := Nat.mod_lt _ hW0
    have hdecomp : i / W * W + i % W = i := by
      have h1 := Nat.div_add_mod i W
      have h2 : W * (i / W) = i / W * W := Nat.mul_comm _ _
      omega
    have hilen : (blinkerV W H r c).get_index (i / W) (i % W) <
        (blinkerV W H r c).cells.length := by
      rw [blinkerV_length]
      rw [show (blinkerV W H r c).get_index (i / W) (i % W) =
        i / W * W + i % W from rfl, hdecomp]
      exact hi
    have htick := getCell_tick_index (blinkerV W H r c) (i / W) (i % W)
      hrowlt hcollt hilen
    rw [show (blinkerV W H r c).get_index (i / W) (i % W) =
      i / W * W + i % W from rfl, hdecomp] at htick
    rw [htick]
    have hstep := blinkerV_tick_cell W H r c (i / W) (i % W)
      h2r hrH h2c hcW hrowlt hcollt
    rw [hdecomp] at hstep
    exact hstep

/-- Claim C7: on any toroidal grid and any blinker placement away from the
edges (`2 ≤ r`, `r + 2 < H`, `2 ≤ c`, `c + 2 < W`, so the grid is at least
5×5), the all-dead grid with a horizontal row of three alive cells centered
at `(r, c)` becomes, after one `tick`, the vertical column of three alive
cells about the same center, and after a second `tick` is restored exactly:
the blinker has period two. -/
theorem blinker_period_two (W H r c : Nat) (h2r : 2 ≤ r) (hrH : r + 2 < H)
    (h2c : 2 ≤ c) (hcW : c + 2 < W) :
    (blinkerH W H r c).tick = blinkerV W H r c ∧
    (blinkerH W H r c).tick.tick = blinkerH W H r c := by
  have h1 := tick_blinkerH W H r c h2r hrH h2c hcW
  have h2 := tick_blinkerV W H r c h2r hrH h2c hcW
  exact ⟨h1, by rw [h1, h2]⟩

/-- Witness for C7: the 5×5 grid with the blinker centered at `(2, 2)`. -/
theorem blinker_period_two_witness :
    (blinkerH 5 5 2 2).tick = blinkerV 5 5 2 2 ∧
    (blinkerH 5 5 2 2).tick.tick = blinkerH 5 5 2 2 :=
  blinker_period_two 5 5 2 2 (by decide) (by decide) (by decide) (by decide)

end GameOfLife
